import Mathlib

/-!
Shallow embedding of the MLPs_ensemble repository (model ensembling and
result-unification layer) and proofs about its claimed properties.

Conventions of the embedding:
* Energies and coordinates are modelled as exact scalars (`Int`); every claim
  below is about data flow and control flow, not about floating-point rounding.
* External collaborators (ASE/pymatgen calculators, the CHGNet predictor, the
  MaterialsProject2020Compatibility processor) are parameters of the embedded
  functions: a value of type `A -> Except String B` stands for a Python call
  that either returns a `B` or raises an exception carrying a message.
* A Python function that may raise is embedded as returning `Except String r`;
  a `try/except` block is embedded by matching on that value.
-/

set_option autoImplicit false

namespace MLPsEnsemble

/-! ## Structure representations

`PmgStructure` embeds `pymatgen.core.Structure(lattice, species, coords,
coords_are_cartesian=True)` as the plain data it carries; `AseAtoms` embeds an
`ase.Atoms` object (cell, chemical symbols, cartesian positions). -/

structure PmgStructure where
  lattice : List (List Int)
  species : List String
  coords : List (List Int)
  deriving DecidableEq, Repr

structure AseAtoms where
  cell : List (List Int)
  symbols : List String
  positions : List (List Int)
  deriving DecidableEq, Repr

/-- The lattice-form view each ASE-based adapter builds inline before energy
correction (`Structure(lattice=structure.cell, species=..., coords=...,
coords_are_cartesian=True)` in `mace_model.py`, `eqv2_model.py`,
`matter_sim.py`), and also `utils/conversion.ase_to_pymatgen`. -/
def aseToPmg (a : AseAtoms) : PmgStructure :=
  ⟨a.cell, a.symbols, a.positions⟩

/-- A concrete structure object (what `_get_structure_for_model` returns). -/
inductive Concrete where
  | ase (a : AseAtoms)
  | pmg (p : PmgStructure)
  deriving DecidableEq, Repr

/-- The `structure_data` dictionary built by the dataset loader: keys
`ase_atoms` and `pymatgen_structure`, each possibly missing or `None`
(the code checks `key not in d or d[key] is None`, so the two cases are
observationally identical and are collapsed into one `Option`). -/
structure StructureData where
  ase_atoms : Option AseAtoms
  pymatgen_structure : Option PmgStructure
  deriving DecidableEq, Repr

/-- The value of the local variable `structure` inside `ModelManager.predict`:
initially the record dictionary, but the line
`structure = self._get_structure_for_model(structure, model)` rebinds it to a
concrete structure object once a selection succeeds. -/
inductive SVal where
  | record (sd : StructureData)
  | conc (c : Concrete)
  deriving DecidableEq, Repr

/-- Embeds `ModelManager._get_structure_for_model`.  On a rebound concrete
structure object the Python membership tests `"ase_atoms" in structure_data`
and `"pymatgen_structure" in structure_data` are `False` (an `ase.Atoms` or
`pymatgen.Structure` never contains a string key), so both branches raise the
same `ValueError` as when the field is absent from the record. -/
def getStructureForModel (sdata : SVal) (modelName fmt : String) :
    Except String Concrete :=
  if fmt = "ase" then
    match sdata with
    | .record sd =>
      match sd.ase_atoms with
      | some a => .ok (.ase a)
      | none => .error ("ASE Atoms not available for model " ++ modelName ++ ".")
    | .conc _ => .error ("ASE Atoms not available for model " ++ modelName ++ ".")
  else if fmt = "pymatgen" then
    match sdata with
    | .record sd =>
      match sd.pymatgen_structure with
      | some p => .ok (.pmg p)
      | none =>
        .error ("Pymatgen Structure not available for model " ++ modelName ++ ".")
    | .conc _ =>
      .error ("Pymatgen Structure not available for model " ++ modelName ++ ".")
  else
    .error ("Unsupported input format for model " ++ modelName ++ ": " ++ fmt)

/-! ## Python dictionaries

Result dictionaries are embedded as ordered key/value lists with Python
`dict` assignment semantics: assigning to an existing key updates it in
place, assigning a new key appends it. -/

def dinsert {α : Type} : List (String × α) → String → α → List (String × α)
  | [], k, v => [(k, v)]
  | p :: rest, k, v =>
    if p.1 = k then (k, v) :: rest else p :: dinsert rest k v

def dkeys {α : Type} : List (String × α) → List String
  | [] => []
  | p :: rest => p.1 :: dkeys rest

def dlookup {α : Type} : List (String × α) → String → Option α
  | [], _ => none
  | p :: rest, k => if p.1 = k then some p.2 else dlookup rest k

/-! ## Ensemble manager -/

/-- One prediction-result value in a manager dictionary: either the dictionary
returned by `model.predict` (seen abstractly, type `α`) or the
`{"error": str(e)}` substitute built by the manager. -/
inductive Entry (α : Type) where
  | ok (r : α)
  | err (msg : String)
  deriving DecidableEq, Repr

/-- A configured model as the manager sees it: `model_name`,
`required_input_format`, and an opaque `predict` method that, on a concrete
structure and a prediction type, either returns a result or raises. -/
structure MgrModel (α : Type) where
  model_name : String
  required_input_format : String
  predictFn : Concrete → Option String → Except String α

/-- The per-model loop of `ModelManager.predict`.  Mirrors the source exactly:
selection failure is caught and recorded without rebinding `structure`;
a successful selection rebinds `structure` to the concrete object (this is the
`structure = self._get_structure_for_model(structure, model)` line) even when
the subsequent `model.predict` call fails. -/
def predictLoop {α : Type} :
    List (MgrModel α) → SVal → Option String → List (String × Entry α) →
      List (String × Entry α)
  | [], _, _, acc => acc
  | m :: rest, sv, pt, acc =>
    match getStructureForModel sv m.model_name m.required_input_format with
    | .error e => predictLoop rest sv pt (dinsert acc m.model_name (.err e))
    | .ok c =>
      match m.predictFn c pt with
      | .ok r => predictLoop rest (.conc c) pt (dinsert acc m.model_name (.ok r))
      | .error e => predictLoop rest (.conc c) pt (dinsert acc m.model_name (.err e))

/-- Embeds `ModelManager.predict` (single structure). -/
def managerPredict {α : Type} (models : List (MgrModel α)) (sd : StructureData)
    (pt : Option String) : List (String × Entry α) :=
  predictLoop models (.record sd) pt []

/-- One value of a batch row dictionary: the `index` integer, the
`structure` label string, or a per-model entry. -/
inductive RVal (α : Type) where
  | idx (n : Nat)
  | label (s : String)
  | entry (e : Entry α)
  deriving DecidableEq, Repr

/-- Embeds the external call
`structure["ase_atoms"].get_chemical_formula("reduce")` used for the
`structure` label: an external total function of the atoms object, modelled
from its symbols. -/
def get_chemical_formula (a : AseAtoms) : String :=
  String.join a.symbols

/-- One iteration of the per-model loop inside one `ModelManager.predict_batch`
step.  Unlike the single-structure `predict`, the batch loop binds the selected
structure to the fresh variable `sub_structure`, so the record is passed to
every model. -/
def batchStep {α : Type} (sd : StructureData) (pt : Option String)
    (acc : List (String × RVal α)) (m : MgrModel α) : List (String × RVal α) :=
  match getStructureForModel (.record sd) m.model_name m.required_input_format with
  | .error e => dinsert acc m.model_name (.entry (.err e))
  | .ok c =>
    match m.predictFn c pt with
    | .ok r => dinsert acc m.model_name (.entry (.ok r))
    | .error e => dinsert acc m.model_name (.entry (.err e))

/-- One row of `ModelManager.predict_batch`: the initial
`{"index": idx, "structure": <formula>}` dictionary extended by the per-model
loop. -/
def batchRow {α : Type} (models : List (MgrModel α)) (sd : StructureData)
    (pt : Option String) (idx : Nat) (a : AseAtoms) : List (String × RVal α) :=
  models.foldl (batchStep sd pt)
    [("index", RVal.idx idx), ("structure", RVal.label (get_chemical_formula a))]

/-- The iteration of `ModelManager.predict_batch`.  The label line
`result = {"index": idx, "structure": structure["ase_atoms"].get_chemical_formula("reduce")}`
sits outside every `try`, so a record whose `ase_atoms` field is missing or
`None` raises (`KeyError` / `AttributeError`) and aborts the whole batch; this
is the `.error` case here. -/
def batchLoop {α : Type} (models : List (MgrModel α)) (pt : Option String) :
    Nat → List StructureData → Except String (List (List (String × RVal α)))
  | _, [] => .ok []
  | idx, sd :: rest =>
    match sd.ase_atoms with
    | none => .error "ase_atoms unavailable for structure label"
    | some a =>
      match batchLoop models pt (idx + 1) rest with
      | .error e => .error e
      | .ok tl => .ok (batchRow models sd pt idx a :: tl)

/-- Embeds `ModelManager.predict_batch`. -/
def managerPredictBatch {α : Type} (models : List (MgrModel α))
    (sds : List StructureData) (pt : Option String) :
    Except String (List (List (String × RVal α))) :=
  batchLoop models pt 0 sds

/-! ## The prediction-type filter

Every adapter guards its branches with `if not prediction_type or
"energy" in prediction_type` (resp. `"force"`): Python substring containment,
with `None` and the empty string both falsy (meaning "compute everything"). -/

def listStarts : List Char → List Char → Bool
  | [], _ => true
  | _ :: _, [] => false
  | a :: as, b :: bs => a == b && listStarts as bs

def listHasSub : List Char → List Char → Bool
  | needle, [] => needle.isEmpty
  | needle, c :: rest => listStarts needle (c :: rest) || listHasSub needle rest

/-- Python `needle in hay` on strings. -/
def strContains (hay needle : String) : Bool :=
  listHasSub needle.toList hay.toList

/-- The guard `if not prediction_type or prop in prediction_type`. -/
def wantsProp (pt : Option String) (prop : String) : Bool :=
  match pt with
  | none => true
  | some s => s.isEmpty || strContains s prop

/-! ## Energy correction (`utils/energy_correction.py`) -/

/-- The `ComputedStructureEntry` built by `apply_mp2020_correction` (the
field `struct` stands for the Python attribute `structure`, a reserved word
here). -/
structure ComputedStructureEntry where
  struct : PmgStructure
  energy : Int
  is_hubbard : Bool
  run_type : String
  deriving DecidableEq, Repr

/-- The external `MaterialsProject2020Compatibility.process_entry` call: it
may return a corrected entry, return `None`, or raise. -/
def ProcessEntry : Type :=
  ComputedStructureEntry → Except String (Option ComputedStructureEntry)

/-- The entry construction in `apply_mp2020_correction`:
`ComputedStructureEntry(structure=..., energy=..., parameters={"is_hubbard": False, "run_type": "GGA"})`. -/
def mkEntry (energy : Int) (s : PmgStructure) : ComputedStructureEntry :=
  { struct := s, energy := energy, is_hubbard := false, run_type := "GGA" }

/-- Embeds `apply_mp2020_correction`.  The `try` block covers both the
`process_entry` call and the `raise ValueError` taken when the processor
returns a falsy value (a `ComputedStructureEntry` defines no `__bool__` or
`__len__`, so falsy is exactly `None`); the catch-all `except` prints and
returns the raw energy. -/
def apply_mp2020_correction (process_entry : ProcessEntry) (energy : Int)
    (s : PmgStructure) : Except String Int :=
  match process_entry (mkEntry energy s) with
  | .ok (some corrected) => .ok corrected.energy
  | .ok none => .ok energy
  | .error _ => .ok energy

/-! ## Model adapters -/

/-- The result dictionary an adapter builds: optional `energy` and `forces`
keys (`forces` already converted by `.tolist()` to plain nested lists). -/
structure AdapterResult where
  energy : Option Int
  forces : Option (List (List Int))
  deriving DecidableEq, Repr

/-- The attached ASE calculator as the adapters use it:
`structure.get_total_energy()` and `structure.get_forces().tolist()`,
either of which may raise. -/
structure AseCalc where
  get_total_energy : AseAtoms → Except String Int
  get_forces : AseAtoms → Except String (List (List Int))

/-- The shared body of `MACEModel.predict`, `EqV2Model.predict` and
`MatterSimModel.predict`, which are line-for-line identical in the source:
attach the calculator, and then

* if the energy branch is taken: `raw = structure.get_total_energy()`, build
  the lattice-form view of the structure being predicted, correct, store;
* if the force branch is taken: `structure.get_forces().tolist()`. -/
def aseAdapterBody (calcObj : AseCalc) (pe : ProcessEntry) (a : AseAtoms)
    (pt : Option String) : Except String AdapterResult :=
  let step1 : Except String AdapterResult :=
    if wantsProp pt "energy" then
      match calcObj.get_total_energy a with
      | .error e => .error e
      | .ok raw =>
        match apply_mp2020_correction pe raw (aseToPmg a) with
        | .error e => .error e
        | .ok corrected => .ok { energy := some corrected, forces := none }
    else
      .ok { energy := none, forces := none }
  match step1 with
  | .error e => .error e
  | .ok r1 =>
    if wantsProp pt "force" then
      match calcObj.get_forces a with
      | .error e => .error e
      | .ok fs => .ok { r1 with forces := some fs }
    else
      .ok r1

/-- `MACEModel.predict`: the body inside
`try: ... except Exception as e: raise RuntimeError(f"MACE prediction failed: ...")`. -/
def macePredict (calcObj : AseCalc) (pe : ProcessEntry) (a : AseAtoms)
    (pt : Option String) : Except String AdapterResult :=
  match aseAdapterBody calcObj pe a pt with
  | .ok r => .ok r
  | .error e => .error ("MACE prediction failed: " ++ e)

/-- `MatterSimModel.predict`: same body, different wrapper message. -/
def matterSimPredict (calcObj : AseCalc) (pe : ProcessEntry) (a : AseAtoms)
    (pt : Option String) : Except String AdapterResult :=
  match aseAdapterBody calcObj pe a pt with
  | .ok r => .ok r
  | .error e => .error ("MatterSim prediction failed: " ++ e)

/-- `EqV2Model.predict`: the same body but with NO `try/except` around it in
the source — internal failures propagate unwrapped. -/
def eqv2Predict (calcObj : AseCalc) (pe : ProcessEntry) (a : AseAtoms)
    (pt : Option String) : Except String AdapterResult :=
  aseAdapterBody calcObj pe a pt

/-- What the external `CHGNet.predict_structure` call yields: per-site
energies and forces (field `f`; already plain after `.tolist()`). -/
structure ChgnetOutput where
  site_energies : List Int
  f : List (List Int)
  deriving DecidableEq, Repr

/-- The body of `CHGNETModel.predict`: call `predict_structure`
unconditionally, then fill the requested keys.  The energy placed is
`sum(prediction["site_energies"])` — `apply_mp2020_correction` is never
invoked in `chgnet_model.py`. -/
def chgnetBody (predictStructure : PmgStructure → Except String ChgnetOutput)
    (s : PmgStructure) (pt : Option String) : Except String AdapterResult :=
  match predictStructure s with
  | .error e => .error e
  | .ok prediction =>
    let r1 : AdapterResult :=
      if wantsProp pt "energy" then
        { energy := some prediction.site_energies.sum, forces := none }
      else
        { energy := none, forces := none }
    if wantsProp pt "force" then
      .ok { r1 with forces := some prediction.f }
    else
      .ok r1

/-- `CHGNETModel.predict`: body wrapped by
`except Exception as e: raise RuntimeError(f"CHGNET prediction failed: ...")`. -/
def chgnetPredict (predictStructure : PmgStructure → Except String ChgnetOutput)
    (s : PmgStructure) (pt : Option String) : Except String AdapterResult :=
  match chgnetBody predictStructure s pt with
  | .ok r => .ok r
  | .error e => .error ("CHGNET prediction failed: " ++ e)

/-! ## Result serializer (`ModelManager.serialize_results`)

The value domain a result record can hold: plain JSON values (ints, floats,
strings, booleans, `None`, lists, dicts) plus the three numpy shapes the
serializer converts (`np.ndarray`, `np.float32/64`, `np.int32/64`).  Floats
are carried as exact rationals; no arithmetic is performed on them.
An `ndarray` is represented by the value its `.tolist()` method yields, which
numpy guarantees to be built from plain numbers, booleans and nested lists
only (`PVal`). -/

mutual

inductive JVal where
  | vint : Int → JVal
  | vfloat : Rat → JVal
  | vstr : String → JVal
  | vbool : Bool → JVal
  | vnone : JVal
  | vlist : JList → JVal
  | vdict : JFields → JVal
  | vndarray : PVal → JVal
  | vnpfloat : Rat → JVal
  | vnpint : Int → JVal

inductive JList where
  | nil : JList
  | cons : JVal → JList → JList

inductive JFields where
  | nil : JFields
  | cons : String → JVal → JFields → JFields

inductive PVal where
  | pint : Int → PVal
  | pfloat : Rat → PVal
  | pbool : Bool → PVal
  | plist : PList → PVal

inductive PList where
  | nil : PList
  | cons : PVal → PList → PList

end

mutual

/-- The `.tolist()` image of an ndarray, seen as a generic value. -/
def PVal.toJVal : PVal → JVal
  | .pint n => .vint n
  | .pfloat q => .vfloat q
  | .pbool b => .vbool b
  | .plist xs => .vlist xs.toJList

def PList.toJList : PList → JList
  | .nil => .nil
  | .cons v tl => .cons v.toJVal tl.toJList

end

mutual

/-- The per-value dispatch of `serialize_results`: `np.ndarray` values become
`value.tolist()`, `np.float32/64` become `float(value)`, `np.int32/64` become
`int(value)`, nested dicts are serialized recursively
(`ModelManager.serialize_results([value])[0]`), everything else is copied
unchanged. -/
def serializeValue : JVal → JVal
  | .vndarray p => p.toJVal
  | .vnpfloat q => .vfloat q
  | .vnpint n => .vint n
  | .vdict fs => .vdict (serializeFields fs)
  | v => v

/-- The `for key, value in result.items()` loop over one record. -/
def serializeFields : JFields → JFields
  | .nil => .nil
  | .cons k v tl => .cons k (serializeValue v) (serializeFields tl)

end

/-- Embeds `ModelManager.serialize_results` on a list of record
dictionaries. -/
def serialize_results (rs : List JFields) : List JFields :=
  rs.map serializeFields

/-- The keys of a record dictionary, in order. -/
def fkeys : JFields → List String
  | .nil => []
  | .cons k _ tl => k :: fkeys tl

mutual

/-- A value a generic JSON encoder can represent: no numpy wrapper anywhere. -/
def jsonSafeV : JVal → Bool
  | .vndarray _ => false
  | .vnpfloat _ => false
  | .vnpint _ => false
  | .vlist xs => jsonSafeL xs
  | .vdict fs => jsonSafeF fs
  | _ => true

def jsonSafeL : JList → Bool
  | .nil => true
  | .cons v tl => jsonSafeV v && jsonSafeL tl

def jsonSafeF : JFields → Bool
  | .nil => true
  | .cons _ v tl => jsonSafeV v && jsonSafeF tl

end

mutual

/-- The parts of a value that `serialize_results` copies verbatim are already
JSON-safe: lists are passed through whole, so they must be safe themselves;
dict values are inspected recursively; the three numpy shapes at the top of a
value are converted, so they are allowed. -/
def ptSafeV : JVal → Bool
  | .vndarray _ => true
  | .vnpfloat _ => true
  | .vnpint _ => true
  | .vlist xs => jsonSafeL xs
  | .vdict fs => ptSafeF fs
  | _ => true

def ptSafeF : JFields → Bool
  | .nil => true
  | .cons _ v tl => ptSafeV v && ptSafeF tl

end

/-! ## Concrete sample inputs used by counterexamples and witnesses -/

/-- A small concrete lattice-form structure (rock salt NaCl). -/
def P0 : PmgStructure :=
  ⟨[[1, 0, 0], [0, 1, 0], [0, 0, 1]], ["Na", "Cl"], [[0, 0, 0], [1, 1, 1]]⟩

/-- The same structure in atoms form. -/
def A0 : AseAtoms :=
  ⟨[[1, 0, 0], [0, 1, 0], [0, 0, 1]], ["Na", "Cl"], [[0, 0, 0], [1, 1, 1]]⟩

/-- A correction processor that always succeeds and shifts the energy by 1. -/
def peShift : ProcessEntry :=
  fun e => .ok (some { e with energy := e.energy + 1 })

/-- A correction processor that always raises (unsupported element). -/
def peFail : ProcessEntry :=
  fun _ => .error "unsupported element"

/-- A calculator that always succeeds. -/
def calcOk : AseCalc :=
  ⟨fun _ => .ok 3, fun _ => .ok [[1, 2, 3]]⟩

/-- A calculator whose energy and force calls raise. -/
def calcBad : AseCalc :=
  ⟨fun _ => .error "boom", fun _ => .error "boom"⟩

/-- A CHGNet predictor that succeeds with site energies `[2, 3]`. -/
def chgOk : PmgStructure → Except String ChgnetOutput :=
  fun _ => .ok ⟨[2, 3], [[0, 0, 0]]⟩

/-- A configured atoms-form model that always succeeds. -/
def mAse : MgrModel String :=
  ⟨"MACE", "ase", fun _ _ => .ok "r"⟩

/-- A configured lattice-form model that always succeeds. -/
def mPmg : MgrModel String :=
  ⟨"CHGNET", "pymatgen", fun _ _ => .ok "r"⟩

/-- A record holding both representations. -/
def sdBoth : StructureData := ⟨some A0, some P0⟩

/-- A record lacking the atoms-form representation. -/
def sdPmgOnly : StructureData := ⟨none, some P0⟩

/-! ## Helper lemmas: energy correction -/

theorem apply_mp2020_ok (pe : ProcessEntry) (E : Int) (s : PmgStructure) :
    ∃ v, apply_mp2020_correction pe E s = .ok v := by
  unfold apply_mp2020_correction
  cases hpe : pe (mkEntry E s) with
  | ok o =>
    cases o with
    | none => exact ⟨E, by simp [hpe]⟩
    | some c => exact ⟨c.energy, by simp [hpe]⟩
  | error e => exact ⟨E, by simp [hpe]⟩

/-- Claim C5: if the correction scheme cannot process the structure (the
processor raises, or returns a falsy result), `apply_mp2020_correction`
returns the raw energy unchanged; and it never propagates an exception —
for every processor behaviour it returns normally. -/
theorem correction_failure_returns_raw :
    (∀ (pe : ProcessEntry) (E : Int) (s : PmgStructure),
      ∃ v, apply_mp2020_correction pe E s = .ok v)
    ∧ ∀ (pe : ProcessEntry) (E : Int) (s : PmgStructure),
      (pe (mkEntry E s) = .ok none ∨ ∃ m, pe (mkEntry E s) = .error m) →
      apply_mp2020_correction pe E s = .ok E := by
  refine ⟨apply_mp2020_ok, ?_⟩
  intro pe E s h
  unfold apply_mp2020_correction
  rcases h with h | ⟨m, h⟩ <;> simp [h]

/-- Witness for C5 at a concrete failing scheme. -/
theorem correction_failure_returns_raw_witness :
    apply_mp2020_correction peFail 7 P0 = .ok 7 :=
  correction_failure_returns_raw.2 peFail 7 P0 (Or.inr ⟨"unsupported element", rfl⟩)

/-! ## Helper lemmas: serializer -/

theorem serializeValue_toJVal (p : PVal) : serializeValue p.toJVal = p.toJVal := by
  cases p <;> rfl

mutual

theorem serializeValue_idem :
    (v : JVal) → serializeValue (serializeValue v) = serializeValue v
  | .vint _ => rfl
  | .vfloat _ => rfl
  | .vstr _ => rfl
  | .vbool _ => rfl
  | .vnone => rfl
  | .vlist _ => rfl
  | .vndarray p => serializeValue_toJVal p
  | .vnpfloat _ => rfl
  | .vnpint _ => rfl
  | .vdict fs => congrArg JVal.vdict (serializeFields_idem fs)

theorem serializeFields_idem :
    (fs : JFields) → serializeFields (serializeFields fs) = serializeFields fs
  | .nil => rfl
  | .cons k v tl => by
    show JFields.cons k (serializeValue (serializeValue v))
        (serializeFields (serializeFields tl)) = JFields.cons k (serializeValue v) (serializeFields tl)
    rw [serializeValue_idem v, serializeFields_idem tl]

end

/-- Claim C7: the result serializer is idempotent — serializing the output of
`serialize_results` again returns the same value. -/
theorem serialize_results_idempotent :
    ∀ rs : List JFields, serialize_results (serialize_results rs) = serialize_results rs := by
  intro rs
  induction rs with
  | nil => rfl
  | cons r tl ih =>
    simp only [serialize_results, List.map_cons] at ih ⊢
    rw [serializeFields_idem r]
    exact congrArg _ (by simpa [serialize_results] using ih)

/-! ## Claim C1: the energy path -/

/-- Claim C1 counterexample: the CHGNET adapter places the raw sum of site
energies, not the output of the energy-correction function, even though the
correction (here: add 1) succeeds.  The claim quantifies over every model
adapter, so it fails at `CHGNETModel.predict`. -/
theorem chgnet_energy_uncorrected :
    chgnetPredict chgOk P0 (some "energy") = .ok ⟨some 5, none⟩
    ∧ apply_mp2020_correction peShift 5 P0 = .ok 6
    ∧ (5 : Int) ≠ 6 :=
  ⟨rfl, rfl, by decide⟩

theorem wants_energy_energy : wantsProp (some "energy") "energy" = true := rfl

theorem wants_energy_force : wantsProp (some "energy") "force" = false := rfl

/-- Claim C1 (amended): for the MACE, EqV2 and MatterSim adapters, the energy
placed in the result for `prediction_type="energy"` is exactly the output of
`apply_mp2020_correction` on the calculator raw total energy and the
lattice-form view derived from the structure being predicted; the CHGNET
adapter instead places the uncorrected `sum(prediction["site_energies"])`. -/
theorem energy_path_amended :
    (∀ (calcObj : AseCalc) (pe : ProcessEntry) (a : AseAtoms) (raw : Int),
      calcObj.get_total_energy a = .ok raw →
      ∃ v, apply_mp2020_correction pe raw (aseToPmg a) = .ok v
        ∧ macePredict calcObj pe a (some "energy") = .ok ⟨some v, none⟩
        ∧ eqv2Predict calcObj pe a (some "energy") = .ok ⟨some v, none⟩
        ∧ matterSimPredict calcObj pe a (some "energy") = .ok ⟨some v, none⟩)
    ∧ ∀ (ps : PmgStructure → Except String ChgnetOutput) (s : PmgStructure)
        (out : ChgnetOutput),
      ps s = .ok out →
      chgnetPredict ps s (some "energy") = .ok ⟨some out.site_energies.sum, none⟩ := by
  constructor
  · intro calcObj pe a raw hE
    obtain ⟨v, hv⟩ := apply_mp2020_ok pe raw (aseToPmg a)
    have hbody : aseAdapterBody calcObj pe a (some "energy") = .ok ⟨some v, none⟩ := by
      unfold aseAdapterBody
      simp [wants_energy_energy, wants_energy_force, hE, hv]
    refine ⟨v, hv, ?_, ?_, ?_⟩ <;>
      simp [macePredict, eqv2Predict, matterSimPredict, hbody]
  · intro ps s out hP
    unfold chgnetPredict chgnetBody
    simp [hP, wants_energy_energy, wants_energy_force]

/-- Witness for C1 (amended) at a concrete calculator and scheme. -/
theorem energy_path_amended_witness :
    (∃ v, apply_mp2020_correction peShift 3 (aseToPmg A0) = .ok v
      ∧ macePredict calcOk peShift A0 (some "energy") = .ok ⟨some v, none⟩
      ∧ eqv2Predict calcOk peShift A0 (some "energy") = .ok ⟨some v, none⟩
      ∧ matterSimPredict calcOk peShift A0 (some "energy") = .ok ⟨some v, none⟩)
    ∧ chgnetPredict chgOk P0 (some "energy") =
        .ok ⟨some (ChgnetOutput.site_energies ⟨[2, 3], [[0, 0, 0]]⟩).sum, none⟩ :=
  ⟨energy_path_amended.1 calcOk peShift A0 3 rfl,
   energy_path_amended.2 chgOk P0 ⟨[2, 3], [[0, 0, 0]]⟩ rfl⟩

/-! ## Claim C9: error wrapping -/

/-- Claim C9 counterexample: `EqV2Model.predict` has no `try/except`, so an
internal calculator failure escapes unwrapped — the message is the original
cause alone and does not carry the model name. -/
theorem eqv2_error_escapes_unwrapped :
    eqv2Predict calcBad peShift A0 (some "energy") = .error "boom"
    ∧ strContains "boom" "EqV2" = false :=
  ⟨rfl, rfl⟩

/-- Claim C9 (amended): the MACE, MatterSim and CHGNET adapters wrap every
internal failure in a message carrying the model name followed by the original
cause; the EqV2 adapter propagates the internal exception unchanged (its
`predict` is exactly the shared unwrapped body). -/
theorem adapter_error_wrapping_amended :
    (∀ (calcObj : AseCalc) (pe : ProcessEntry) (a : AseAtoms) (pt : Option String)
        (e : String), macePredict calcObj pe a pt = .error e →
      ∃ c, e = "MACE prediction failed: " ++ c
        ∧ aseAdapterBody calcObj pe a pt = .error c)
    ∧ (∀ (calcObj : AseCalc) (pe : ProcessEntry) (a : AseAtoms) (pt : Option String)
        (e : String), matterSimPredict calcObj pe a pt = .error e →
      ∃ c, e = "MatterSim prediction failed: " ++ c
        ∧ aseAdapterBody calcObj pe a pt = .error c)
    ∧ (∀ (ps : PmgStructure → Except String ChgnetOutput) (s : PmgStructure)
        (pt : Option String) (e : String), chgnetPredict ps s pt = .error e →
      ∃ c, e = "CHGNET prediction failed: " ++ c ∧ chgnetBody ps s pt = .error c)
    ∧ ∀ (calcObj : AseCalc) (pe : ProcessEntry) (a : AseAtoms) (pt : Option String),
      eqv2Predict calcObj pe a pt = aseAdapterBody calcObj pe a pt := by
  refine ⟨?_, ?_, ?_, fun _ _ _ _ => rfl⟩
  · intro calcObj pe a pt e h
    unfold macePredict at h
    cases hb : aseAdapterBody calcObj pe a pt with
    | ok r => rw [hb] at h; exact absurd h (by simp)
    | error c =>
      rw [hb] at h
      exact ⟨c, by injection h with h2; exact h2.symm, rfl⟩
  · intro calcObj pe a pt e h
    unfold matterSimPredict at h
    cases hb : aseAdapterBody calcObj pe a pt with
    | ok r => rw [hb] at h; exact absurd h (by simp)
    | error c =>
      rw [hb] at h
      exact ⟨c, by injection h with h2; exact h2.symm, rfl⟩
  · intro ps s pt e h
    unfold chgnetPredict at h
    cases hb : chgnetBody ps s pt with
    | ok r => rw [hb] at h; exact absurd h (by simp)
    | error c =>
      rw [hb] at h
      exact ⟨c, by injection h with h2; exact h2.symm, rfl⟩

/-- Witness for C9 (amended) at a concrete failing calculator. -/
theorem adapter_error_wrapping_witness :
    ∃ c, "MACE prediction failed: boom" = "MACE prediction failed: " ++ c
      ∧ aseAdapterBody calcBad peShift A0 (some "energy") = .error c :=
  adapter_error_wrapping_amended.1 calcBad peShift A0 (some "energy")
    "MACE prediction failed: boom" rfl

/-! ## Claim C10: the prediction-type filter -/

/-- Claim C10 counterexample: the empty string contains neither `"energy"`
nor `"force"` as a substring, yet `predict` computes BOTH keys for it —
Python `not prediction_type` treats the falsy empty string as "unset". -/
theorem empty_prediction_type_computes_both :
    strContains "" "energy" = false
    ∧ strContains "" "force" = false
    ∧ macePredict calcOk peShift A0 (some "") = .ok ⟨some 4, some [[1, 2, 3]]⟩ :=
  ⟨rfl, rfl, rfl⟩

/-- Claim C10 (amended): for every NONEMPTY predictionType string containing
neither `"energy"` nor `"force"` as a substring, the MACE, EqV2 and MatterSim
adapters return the empty result mapping with no error; CHGNET does too
provided its unconditional `predict_structure` call succeeds.  The empty
string is instead treated as "unset" and computes both keys. -/
theorem prediction_type_filter_amended :
    ∀ s : String, s ≠ "" → strContains s "energy" = false →
      strContains s "force" = false →
    (∀ (calcObj : AseCalc) (pe : ProcessEntry) (a : AseAtoms),
      macePredict calcObj pe a (some s) = .ok ⟨none, none⟩
      ∧ eqv2Predict calcObj pe a (some s) = .ok ⟨none, none⟩
      ∧ matterSimPredict calcObj pe a (some s) = .ok ⟨none, none⟩)
    ∧ ∀ (ps : PmgStructure → Except String ChgnetOutput) (p : PmgStructure)
        (out : ChgnetOutput),
      ps p = .ok out → chgnetPredict ps p (some s) = .ok ⟨none, none⟩ := by
  intro s hne hce hcf
  have hempty : s.isEmpty = false := by
    cases h : s.isEmpty
    · rfl
    · exact absurd ((String.isEmpty_iff s).mp h) hne
  have hwe : wantsProp (some s) "energy" = false := by
    simp [wantsProp, hempty, hce]
  have hwf : wantsProp (some s) "force" = false := by
    simp [wantsProp, hempty, hcf]
  constructor
  · intro calcObj pe a
    have hbody : aseAdapterBody calcObj pe a (some s) = .ok ⟨none, none⟩ := by
      unfold aseAdapterBody
      simp [hwe, hwf]
    exact ⟨by simp [macePredict, hbody], by simp [eqv2Predict, hbody],
      by simp [matterSimPredict, hbody]⟩
  · intro ps p out hP
    unfold chgnetPredict chgnetBody
    simp [hP, hwe, hwf]

/-- Witness for C10 (amended) at `prediction_type="stress"`. -/
theorem prediction_type_filter_witness :
    macePredict calcOk peShift A0 (some "stress") = .ok ⟨none, none⟩
    ∧ chgnetPredict chgOk P0 (some "stress") = .ok ⟨none, none⟩ :=
  ⟨((prediction_type_filter_amended "stress" (by decide) rfl rfl).1 calcOk peShift A0).1,
   (prediction_type_filter_amended "stress" (by decide) rfl rfl).2 chgOk P0
     ⟨[2, 3], [[0, 0, 0]]⟩ rfl⟩

/-! ## Helper lemmas: dictionaries -/

theorem dlookup_dinsert_self {α : Type} (d : List (String × α)) (k : String) (v : α) :
    dlookup (dinsert d k v) k = some v := by
  induction d with
  | nil => simp [dinsert, dlookup]
  | cons p rest ih =>
    by_cases h : p.1 = k
    · simp [dinsert, h, dlookup]
    · simp [dinsert, h, dlookup, ih]

theorem dlookup_dinsert_ne {α : Type} (d : List (String × α)) (k k₂ : String) (v : α)
    (h : k ≠ k₂) : dlookup (dinsert d k v) k₂ = dlookup d k₂ := by
  induction d with
  | nil => simp [dinsert, dlookup, h]
  | cons p rest ih =>
    by_cases hp : p.1 = k
    · simp [dinsert, hp, dlookup, h]
    · simp [dinsert, hp, dlookup, ih]

theorem mem_dkeys_dinsert {α : Type} (d : List (String × α)) (k k₂ : String) (v : α) :
    k₂ ∈ dkeys (dinsert d k v) ↔ k₂ = k ∨ k₂ ∈ dkeys d := by
  induction d with
  | nil => simp [dinsert, dkeys]
  | cons p rest ih =>
    by_cases hp : p.1 = k
    · simp [dinsert, hp, dkeys]
    · simp [dinsert, hp, dkeys, ih]
      tauto

theorem nodup_dkeys_dinsert {α : Type} (d : List (String × α)) (k : String) (v : α)
    (h : (dkeys d).Nodup) : (dkeys (dinsert d k v)).Nodup := by
  induction d with
  | nil => simp [dinsert, dkeys]
  | cons p rest ih =>
    simp only [dkeys, List.nodup_cons] at h
    by_cases hp : p.1 = k
    · simp only [dinsert, hp, if_pos rfl, dkeys, List.nodup_cons]
      exact ⟨hp ▸ h.1, h.2⟩
    · simp only [dinsert, hp, if_neg hp, dkeys, List.nodup_cons]
      refine ⟨?_, ih h.2⟩
      intro hmem
      rcases (mem_dkeys_dinsert rest k p.1 v).mp hmem with h2 | h2
      · exact hp h2
      · exact h.1 h2

theorem dlookup_isSome_of_mem {α : Type} (d : List (String × α)) (k : String)
    (h : k ∈ dkeys d) : ∃ v, dlookup d k = some v := by
  induction d with
  | nil => simp [dkeys] at h
  | cons p rest ih =>
    by_cases hp : p.1 = k
    · exact ⟨p.2, by simp [dlookup, hp]⟩
    · simp only [dkeys, List.mem_cons] at h
      rcases h with h | h
      · exact absurd h.symm hp
      · obtain ⟨v, hv⟩ := ih h
        exact ⟨v, by simp [dlookup, hp, hv]⟩

/-! ## Helper lemmas: the single-structure predict loop -/

theorem predictLoop_step {α : Type} (m : MgrModel α) (rest : List (MgrModel α))
    (sv : SVal) (pt : Option String) (acc : List (String × Entry α)) :
    ∃ sv₂ e, predictLoop (m :: rest) sv pt acc =
      predictLoop rest sv₂ pt (dinsert acc m.model_name e) := by
  cases hg : getStructureForModel sv m.model_name m.required_input_format with
  | error e => exact ⟨sv, .err e, by simp [predictLoop, hg]⟩
  | ok c =>
    cases hp : m.predictFn c pt with
    | ok r => exact ⟨.conc c, .ok r, by simp [predictLoop, hg, hp]⟩
    | error e => exact ⟨.conc c, .err e, by simp [predictLoop, hg, hp]⟩

theorem mem_dkeys_predictLoop {α : Type} (models : List (MgrModel α)) :
    ∀ (sv : SVal) (pt : Option String) (acc : List (String × Entry α)) (k : String),
    k ∈ dkeys (predictLoop models sv pt acc) ↔
      k ∈ dkeys acc ∨ ∃ m ∈ models, m.model_name = k := by
  induction models with
  | nil =>
    intro sv pt acc k
    simp [predictLoop]
  | cons m rest ih =>
    intro sv pt acc k
    obtain ⟨sv₂, e, heq⟩ := predictLoop_step m rest sv pt acc
    rw [heq, ih sv₂ pt _ k, mem_dkeys_dinsert]
    simp only [List.mem_cons]
    constructor
    · rintro (⟨h | h⟩ | ⟨m₂, hm₂, h⟩)
      · exact Or.inr ⟨m, Or.inl rfl, h.symm⟩
      · exact Or.inl h
      · exact Or.inr ⟨m₂, Or.inr hm₂, h⟩
    · rintro (h | ⟨m₂, hm₂ | hm₂, h⟩)
      · exact Or.inl (Or.inr h)
      · exact Or.inl (Or.inl (hm₂ ▸ h.symm))
      · exact Or.inr ⟨m₂, hm₂, h⟩

theorem nodup_dkeys_predictLoop {α : Type} (models : List (MgrModel α)) :
    ∀ (sv : SVal) (pt : Option String) (acc : List (String × Entry α)),
    (dkeys acc).Nodup → (dkeys (predictLoop models sv pt acc)).Nodup := by
  induction models with
  | nil =>
    intro sv pt acc h
    simpa [predictLoop] using h
  | cons m rest ih =>
    intro sv pt acc h
    obtain ⟨sv₂, e, heq⟩ := predictLoop_step m rest sv pt acc
    rw [heq]
    exact ih sv₂ pt _ (nodup_dkeys_dinsert acc m.model_name e h)

/-! ## Helper lemmas: the batch loop -/

theorem batchStep_eq {α : Type} (sd : StructureData) (pt : Option String)
    (acc : List (String × RVal α)) (m : MgrModel α) :
    ∃ e, batchStep sd pt acc m = dinsert acc m.model_name (RVal.entry e) := by
  cases hg : getStructureForModel (.record sd) m.model_name m.required_input_format with
  | error e => exact ⟨.err e, by simp [batchStep, hg]⟩
  | ok c =>
    cases hp : m.predictFn c pt with
    | ok r => exact ⟨.ok r, by simp [batchStep, hg, hp]⟩
    | error e => exact ⟨.err e, by simp [batchStep, hg, hp]⟩

theorem batchFold_lookup {α : Type} (models : List (MgrModel α)) (sd : StructureData)
    (pt : Option String) :
    ∀ (d : List (String × RVal α)) (k : String),
    dlookup (models.foldl (batchStep sd pt) d) k = dlookup d k
    ∨ ∃ e, dlookup (models.foldl (batchStep sd pt) d) k = some (RVal.entry e) := by
  induction models with
  | nil =>
    intro d k
    exact Or.inl rfl
  | cons m rest ih =>
    intro d k
    rw [List.foldl_cons]
    obtain ⟨e, he⟩ := batchStep_eq sd pt d m
    rw [he]
    rcases ih (dinsert d m.model_name (.entry e)) k with h | h
    · rw [h]
      by_cases hk : m.model_name = k
      · subst hk
        rw [dlookup_dinsert_self]
        exact Or.inr ⟨e, rfl⟩
      · rw [dlookup_dinsert_ne _ _ _ _ hk]
        exact Or.inl rfl
    · exact Or.inr h

theorem batchFold_mem_entry {α : Type} (models : List (MgrModel α)) (sd : StructureData)
    (pt : Option String) :
    ∀ (d : List (String × RVal α)), ∀ m ∈ models,
    ∃ e, dlookup (models.foldl (batchStep sd pt) d) m.model_name = some (RVal.entry e) := by
  induction models with
  | nil =>
    intro d m hm
    simp at hm
  | cons m₂ rest ih =>
    intro d m hm
    rw [List.foldl_cons]
    obtain ⟨e, he⟩ := batchStep_eq sd pt d m₂
    rw [he]
    rcases List.mem_cons.mp hm with h | h
    · subst h
      rcases batchFold_lookup rest sd pt (dinsert d m.model_name (.entry e))
          m.model_name with h2 | h2
      · rw [h2, dlookup_dinsert_self]
        exact ⟨e, rfl⟩
      · exact h2
    · exact ih _ m h

theorem batchFold_nodup {α : Type} (models : List (MgrModel α)) (sd : StructureData)
    (pt : Option String) :
    ∀ (d : List (String × RVal α)), (dkeys d).Nodup →
    (dkeys (models.foldl (batchStep sd pt) d)).Nodup := by
  induction models with
  | nil =>
    intro d h
    exact h
  | cons m rest ih =>
    intro d h
    rw [List.foldl_cons]
    obtain ⟨e, he⟩ := batchStep_eq sd pt d m
    rw [he]
    exact ih _ (nodup_dkeys_dinsert d m.model_name (.entry e) h)

theorem batchFold_lookup_ne {α : Type} :
    ∀ (models : List (MgrModel α)) (sd : StructureData) (pt : Option String)
      (key : String), (∀ m ∈ models, m.model_name ≠ key) →
    ∀ (d : List (String × RVal α)),
    dlookup (models.foldl (batchStep sd pt) d) key = dlookup d key := by
  intro models
  induction models with
  | nil =>
    intro sd pt key hni d
    rfl
  | cons m rest ih =>
    intro sd pt key hni d
    rw [List.foldl_cons]
    obtain ⟨e, he⟩ := batchStep_eq sd pt d m
    rw [he, ih sd pt key (fun m₂ hm₂ => hni m₂ (List.mem_cons_of_mem _ hm₂)) _,
      dlookup_dinsert_ne]
    exact hni m (List.mem_cons_self _ _)

theorem batchRow_index {α : Type} (models : List (MgrModel α)) (sd : StructureData)
    (pt : Option String) (idx : Nat) (a : AseAtoms)
    (hni : ∀ m ∈ models, m.model_name ≠ "index") :
    dlookup (batchRow models sd pt idx a) "index" = some (RVal.idx idx) := by
  unfold batchRow
  rw [batchFold_lookup_ne models sd pt "index" hni]
  rfl

theorem batchLoop_ok_rows {α : Type} (models : List (MgrModel α)) (pt : Option String) :
    ∀ (sds : List StructureData) (k : Nat) (out : List (List (String × RVal α))),
    batchLoop models pt k sds = .ok out →
    ∀ row ∈ out, ∃ sd idx a, row = batchRow models sd pt idx a := by
  intro sds
  induction sds with
  | nil =>
    intro k out h row hrow
    simp only [batchLoop] at h
    injection h with h
    subst h
    simp at hrow
  | cons sd rest ih =>
    intro k out h row hrow
    simp only [batchLoop] at h
    cases ha : sd.ase_atoms with
    | none =>
      rw [ha] at h
      exact absurd h (by simp)
    | some a =>
      rw [ha] at h
      cases hb : batchLoop models pt (k + 1) rest with
      | error e =>
        rw [hb] at h
        exact absurd h (by simp)
      | ok tl =>
        rw [hb] at h
        injection h with h
        subst h
        rcases List.mem_cons.mp hrow with h | h
        · exact ⟨sd, k, a, h⟩
        · exact ih (k + 1) tl hb row h

theorem batchLoop_spec {α : Type} (models : List (MgrModel α)) (pt : Option String)
    (hni : ∀ m ∈ models, m.model_name ≠ "index") :
    ∀ (sds : List StructureData) (k : Nat),
    (∀ sd ∈ sds, sd.ase_atoms.isSome = true) →
    ∃ out, batchLoop models pt k sds = .ok out
      ∧ out.length = sds.length
      ∧ ∀ i (h : i < out.length),
          dlookup (out.get ⟨i, h⟩) "index" = some (RVal.idx (k + i)) := by
  intro sds
  induction sds with
  | nil =>
    intro k _
    refine ⟨[], rfl, rfl, ?_⟩
    intro i h
    exact absurd h (by simp)
  | cons sd rest ih =>
    intro k hall
    have hsd : sd.ase_atoms.isSome = true := hall sd (List.mem_cons_self _ _)
    obtain ⟨a, ha⟩ := Option.isSome_iff_exists.mp hsd
    obtain ⟨tl, htl, hlen, hidx⟩ :=
      ih (k + 1) (fun s hs => hall s (List.mem_cons_of_mem _ hs))
    refine ⟨batchRow models sd pt k a :: tl, ?_, ?_, ?_⟩
    · simp only [batchLoop, ha, htl]
    · simp [hlen]
    · intro i h
      cases i with
      | zero =>
        simpa using batchRow_index models sd pt k a hni
      | succ j =>
        have hj : j < tl.length := by
          simpa using Nat.lt_of_succ_lt_succ h
        have := hidx j hj
        simpa [Nat.add_assoc, Nat.add_comm 1 j] using this

/-! ## Claim C2: batch length and order -/

/-- Claim C2 counterexample: a batch containing a valid record that lacks the
atoms-form representation makes `predict_batch` raise at the uncaught
structure-label step, so NO result sequence is returned at all (here even
though the only configured model does not require the atoms form). -/
theorem predict_batch_abort_counterexample :
    managerPredictBatch [mPmg] [sdPmgOnly] none =
      .error "ase_atoms unavailable for structure label" :=
  rfl

/-- Claim C2 (amended): provided every record in the batch has its atoms-form
representation (which the uncaught structure-label step dereferences), and no
model is named `"index"`, `predict_batch` returns exactly one record per
input structure, in input order, regardless of any per-model selection or
prediction failure (the per-model behaviour is universally quantified and may
fail arbitrarily). -/
theorem predict_batch_length_order_amended :
    ∀ (α : Type) (models : List (MgrModel α)) (sds : List StructureData)
      (pt : Option String),
    (∀ sd ∈ sds, sd.ase_atoms.isSome = true) →
    (∀ m ∈ models, m.model_name ≠ "index") →
    ∃ out, managerPredictBatch models sds pt = .ok out
      ∧ out.length = sds.length
      ∧ ∀ i (h : i < out.length),
          dlookup (out.get ⟨i, h⟩) "index" = some (RVal.idx i) := by
  intro α models sds pt hall hni
  obtain ⟨out, hout, hlen, hidx⟩ := batchLoop_spec models pt hni sds 0 hall
  refine ⟨out, hout, hlen, ?_⟩
  intro i h
  simpa using hidx i h

/-- Witness for C2 (amended): a concrete two-structure batch. -/
theorem predict_batch_length_order_witness :
    ∃ out, managerPredictBatch [mAse] [sdBoth, sdBoth] none = .ok out
      ∧ out.length = 2 := by
  obtain ⟨out, h1, h2, _⟩ :=
    predict_batch_length_order_amended String [mAse] [sdBoth, sdBoth] none
      (by decide) (by decide)
  exact ⟨out, h1, h2⟩

/-! ## Claim C3: missing representation -/

/-- Claim C3 (code bug): in single-structure `predict` the missing atoms form
is caught and recorded as that model's error entry naming the unavailable
representation — but in `predict_batch` the same record makes the whole batch
raise at the structure-label step instead of producing a per-model error
entry, because `structure["ase_atoms"]` is dereferenced outside every
`try`. -/
theorem missing_representation_batch_aborts :
    managerPredict [mAse] sdPmgOnly none =
      [("MACE", Entry.err "ASE Atoms not available for model MACE.")]
    ∧ managerPredictBatch [mAse] [sdPmgOnly] none =
        .error "ase_atoms unavailable for structure label" :=
  ⟨rfl, rfl⟩

/-! ## Claim C4: one entry per configured model name -/

/-- Claim C4: every mapping produced by single-structure `predict` and every
row produced by a successful `predict_batch` contains exactly one entry per
configured model name (the keys are duplicate-free, each configured name has
a value — in a batch row always an error-or-success entry — and, for single
`predict`, nothing but model names occurs), no matter how models fail. -/
theorem unified_record_model_keys :
    (∀ (α : Type) (models : List (MgrModel α)) (sd : StructureData)
      (pt : Option String),
      (∀ m ∈ models, ∃ e, dlookup (managerPredict models sd pt) m.model_name = some e)
      ∧ (dkeys (managerPredict models sd pt)).Nodup
      ∧ ∀ k ∈ dkeys (managerPredict models sd pt), ∃ m ∈ models, m.model_name = k)
    ∧ ∀ (α : Type) (models : List (MgrModel α)) (sds : List StructureData)
        (pt : Option String) (out : List (List (String × RVal α))),
      managerPredictBatch models sds pt = .ok out →
      ∀ row ∈ out, (dkeys row).Nodup
        ∧ ∀ m ∈ models, ∃ e, dlookup row m.model_name = some (RVal.entry e) := by
  constructor
  · intro α models sd pt
    refine ⟨?_, ?_, ?_⟩
    · intro m hm
      refine dlookup_isSome_of_mem _ _ ?_
      exact (mem_dkeys_predictLoop models _ pt [] m.model_name).mpr
        (Or.inr ⟨m, hm, rfl⟩)
    · exact nodup_dkeys_predictLoop models _ pt [] (by simp [dkeys])
    · intro k hk
      rcases (mem_dkeys_predictLoop models _ pt [] k).mp hk with h | h
      · simp [dkeys] at h
      · exact h
  · intro α models sds pt out hout row hrow
    obtain ⟨sd, idx, a, hk⟩ := batchLoop_ok_rows models pt sds 0 out hout row hrow
    subst hk
    constructor
    · exact batchFold_nodup models sd pt _ (by simp [dkeys])
    · exact fun m hm => batchFold_mem_entry models sd pt _ m hm

/-- Witness for C4 at a concrete ensemble, record and batch. -/
theorem unified_record_model_keys_witness :
    (∃ e, dlookup (managerPredict [mAse, mPmg] sdBoth none) "CHGNET" = some e)
    ∧ ∃ e, dlookup (batchRow [mAse, mPmg] sdBoth none 0 A0) "MACE" =
        some (RVal.entry e) := by
  constructor
  · exact (unified_record_model_keys.1 String [mAse, mPmg] sdBoth none).1 mPmg
      (by simp)
  · exact (unified_record_model_keys.2 String [mAse, mPmg] [sdBoth] none
      [batchRow [mAse, mPmg] sdBoth none 0 A0] rfl
      (batchRow [mAse, mPmg] sdBoth none 0 A0) (by simp)).2 mAse (by simp)

/-! ## Claim C6: representation selection in single predict -/

/-- Claim C6 (code bug): with both representations present and two adapters of
different required formats, the second adapter does NOT receive the field of
the original record: `predict` rebinds `structure` to the first adapter's
selected representation, so the second adapter's selection fails and its entry
is a missing-representation error even though the record holds its field. -/
theorem predict_rebinding_denies_second_model :
    managerPredict [mAse, mPmg] sdBoth none =
      [("MACE", Entry.ok "r"),
       ("CHGNET", Entry.err "Pymatgen Structure not available for model CHGNET.")] :=
  rfl

/-! ## Claim C8: JSON safety and shape preservation -/

theorem fkeys_serializeFields : (fs : JFields) → fkeys (serializeFields fs) = fkeys fs
  | .nil => rfl
  | .cons k v tl => by
    show k :: fkeys (serializeFields tl) = k :: fkeys tl
    rw [fkeys_serializeFields tl]

mutual

theorem jsonSafeV_toJVal : (p : PVal) → jsonSafeV p.toJVal = true
  | .pint _ => rfl
  | .pfloat _ => rfl
  | .pbool _ => rfl
  | .plist xs => jsonSafeL_toJList xs

theorem jsonSafeL_toJList : (xs : PList) → jsonSafeL xs.toJList = true
  | .nil => rfl
  | .cons v tl => by
    show (jsonSafeV v.toJVal && jsonSafeL tl.toJList) = true
    rw [jsonSafeV_toJVal v, jsonSafeL_toJList tl]
    rfl

end

mutual

theorem jsonSafe_serializeValue :
    (v : JVal) → ptSafeV v = true → jsonSafeV (serializeValue v) = true
  | .vint _, _ => rfl
  | .vfloat _, _ => rfl
  | .vstr _, _ => rfl
  | .vbool _, _ => rfl
  | .vnone, _ => rfl
  | .vlist _, h => h
  | .vdict fs, h => jsonSafe_serializeFields fs h
  | .vndarray p, _ => jsonSafeV_toJVal p
  | .vnpfloat _, _ => rfl
  | .vnpint _, _ => rfl

theorem jsonSafe_serializeFields :
    (fs : JFields) → ptSafeF fs = true → jsonSafeF (serializeFields fs) = true
  | .nil, _ => rfl
  | .cons k v tl, h => by
    have h2 : ptSafeV v = true ∧ ptSafeF tl = true := by
      have hb : (ptSafeV v && ptSafeF tl) = true := h
      exact ⟨(Bool.and_eq_true_iff.mp hb).1, (Bool.and_eq_true_iff.mp hb).2⟩
    show (jsonSafeV (serializeValue v) && jsonSafeF (serializeFields tl)) = true
    rw [jsonSafe_serializeValue v h2.1, jsonSafe_serializeFields tl h2.2]
    rfl

end

/-- A record whose only value is a Python list holding a `np.float32`: the
serializer copies lists verbatim, without inspecting their elements. -/
def badRec : JFields :=
  .cons "x" (.vlist (.cons (.vnpfloat 1) .nil)) .nil

/-- A record whose values are a numpy scalar and an ndarray — the shapes the
serializer does convert. -/
def goodRec : JFields :=
  .cons "energy" (.vnpfloat 2)
    (.cons "forces" (.vndarray (.plist (.cons (.pint 1) .nil))) .nil)

/-- Claim C8 counterexample: on a record holding a list that contains a numpy
scalar wrapper, the serializer returns the record unchanged, so its output
still contains a value a generic JSON encoder cannot represent. -/
theorem serializer_nested_numpy_counterexample :
    serialize_results [badRec] = [badRec] ∧ jsonSafeF badRec = false :=
  ⟨rfl, rfl⟩

/-- Claim C8 (amended): the serializer preserves each record's key list,
converts ndarray values to their plain `tolist` image (which is JSON-safe),
converts numpy float/int scalar wrappers to plain numbers, recurses into
nested dicts, and passes every other value through unchanged; consequently the
output is JSON-safe whenever the passed-through parts (in particular the
elements of list values, which are copied verbatim) are themselves already
JSON-safe — but not in general. -/
theorem serializer_shape_amended :
    (∀ fs : JFields, fkeys (serializeFields fs) = fkeys fs)
    ∧ (∀ p : PVal, serializeValue (.vndarray p) = p.toJVal ∧ jsonSafeV p.toJVal = true)
    ∧ (∀ q : Rat, serializeValue (.vnpfloat q) = .vfloat q)
    ∧ (∀ n : Int, serializeValue (.vnpint n) = .vint n)
    ∧ (∀ fs : JFields, serializeValue (.vdict fs) = .vdict (serializeFields fs))
    ∧ (∀ xs : JList, serializeValue (.vlist xs) = .vlist xs)
    ∧ (∀ n : Int, serializeValue (.vint n) = .vint n)
    ∧ (∀ q : Rat, serializeValue (.vfloat q) = .vfloat q)
    ∧ (∀ s : String, serializeValue (.vstr s) = .vstr s)
    ∧ (∀ b : Bool, serializeValue (.vbool b) = .vbool b)
    ∧ serializeValue .vnone = .vnone
    ∧ ∀ fs : JFields, ptSafeF fs = true → jsonSafeF (serializeFields fs) = true :=
  ⟨fkeys_serializeFields, fun p => ⟨rfl, jsonSafeV_toJVal p⟩, fun _ => rfl,
    fun _ => rfl, fun _ => rfl, fun _ => rfl, fun _ => rfl, fun _ => rfl,
    fun _ => rfl, fun _ => rfl, rfl, jsonSafe_serializeFields⟩

/-- Witness for C8 (amended) at a concrete record. -/
theorem serializer_shape_amended_witness :
    jsonSafeF (serializeFields goodRec) = true :=
  serializer_shape_amended.2.2.2.2.2.2.2.2.2.2.2 goodRec rfl

end MLPsEnsemble
